import Mathlib

/-!
Verification of the go-bbhw GPIO library (gpio_fake.go, gpio_sysfs.go).

Shallow embedding conventions:
* Go's `FakeGPIO` struct is rendered as the Lean structure `FakeGpio`
  (names are kept up to capitalisation).  The heap of `*FakeGPIO`
  pointers is modelled as a total store `Nat → FakeGpio`; pin handles
  are store addresses.  A nil entry inside a `connectedTo` slice is an
  `Option.none` list element, exactly as the Go slice may hold nil
  pointers (the code skips them with `if othergpio == nil { continue }`).
* A Go panic is modelled as a `some msg` in the error component of the
  result, paired with the heap as it stands at the moment of the panic
  (a panic aborts the operation; nothing after it runs).
* Logging (`gpio.log`, `logTarget`) has no observable effect on pin
  state and is not modelled; the `logTarget` field is omitted.
* File-system dependent code (gpio_sysfs.go) is modelled over explicit
  environments describing the relevant file contents / syscall results.
-/

namespace BBHW

/-- Modelled from the spec: the direction constants IN and OUT are defined
in this repository outside the provided sources (spec §3: "Direction:
enumeration {INPUT, OUTPUT}").  They are distinct Go integer constants;
only their distinctness is relevant here. -/
def IN : Int := 0

/-- Modelled from the spec: see `IN`. -/
def OUT : Int := 1

theorem IN_ne_OUT : IN ≠ OUT := by decide

/-- The `FakeGPIO` struct of gpio_fake.go (field `logTarget` omitted:
logging has no effect on pin state).  `connectedTo` holds possibly-nil
pointers to other pins, modelled as optional store addresses. -/
structure FakeGpio where
  name : String
  dir : Int
  value : Bool
  connectedTo : List (Option Nat)
deriving DecidableEq

/-- The heap of `*FakeGPIO` objects, addressed by `Nat`. -/
abbrev Store : Type := Nat → FakeGpio

/-- Pointwise heap update at one address. -/
def updateStore (s : Store) (i : Nat) (g : FakeGpio) : Store :=
  fun j => if j = i then g else s j

theorem updateStore_same (s : Store) (i : Nat) (g : FakeGpio) :
    updateStore s i g i = g := by
  simp [updateStore]

theorem updateStore_ne (s : Store) (i j : Nat) (g : FakeGpio) (h : j ≠ i) :
    updateStore s i g j = s j := by
  simp [updateStore, h]

/-- `NewFakeNamedGPIO` (gpio_fake.go:42-45): fresh pin with the given name
and direction; Go zero values give `value = false` and a nil
`connectedTo` slice (empty list). -/
def newFakeNamedGpio (name : String) (direction : Int) : FakeGpio :=
  { name := name, dir := direction, value := false, connectedTo := [] }

/-- `NewFakeGPIO` (gpio_fake.go:38-40): wraps `NewFakeNamedGPIO` with a
generated name. -/
def newFakeGpio (gpionum : Nat) (direction : Int) : FakeGpio :=
  newFakeNamedGpio ("FakeGPIO(" ++ toString gpionum ++ ")") direction

/-- `GetState` (gpio_fake.go:59-61): returns the cached value and a nil
error, unconditionally. -/
def getState (s : Store) (i : Nat) : Bool × Option String :=
  ((s i).value, none)

/-- `CheckDirection` (gpio_fake.go:47-49): returns the direction and a nil
error, unconditionally. -/
def checkDirection (s : Store) (i : Nat) : Int × Option String :=
  ((s i).dir, none)

/-- `SetDirection` (gpio_fake.go:51-57): panics unless the argument is IN
or OUT, otherwise stores it. -/
def setDirection (s : Store) (i : Nat) (direction : Int) : Store × Option String :=
  if direction = IN ∨ direction = OUT then
    (updateStore s i { s i with dir := direction }, none)
  else
    (s, some "direction neither IN nor OUT")

/-- `FakeInput` (gpio_fake.go:107-118): sets the cached value if the pin's
direction is IN, else panics.  Note: it writes only this pin's `value`
field; it never looks at this pin's own `connectedTo` list. -/
def fakeInput (s : Store) (i : Nat) (state : Bool) : Store × Option String :=
  if (s i).dir = IN then
    (updateStore s i { s i with value := state }, none)
  else
    (s, some "tried to fake input for output gpio")

/-- The propagation loop inside `SetState` (gpio_fake.go:70-77): walk the
`connectedTo` slice in order, skip nil entries, call `FakeInput` on each
target; a panic inside `FakeInput` aborts the walk immediately. -/
def propagate (s : Store) (l : List (Option Nat)) (state : Bool) : Store × Option String :=
  match l with
  | [] => (s, none)
  | Option.none :: rest => propagate s rest state
  | Option.some j :: rest =>
    match fakeInput s j state with
    | (s1, Option.none) => propagate s1 rest state
    | (s1, Option.some e) => (s1, Option.some e)

/-- `SetState` (gpio_fake.go:63-82): on an OUT pin, set the cached value
and then propagate it (synchronously, before returning) to every entry of
`connectedTo`; on any other direction, panic before touching anything.
The value write happens before the walk, and the walk reads the
`connectedTo` slice, which the value write does not touch. -/
def setState (s : Store) (i : Nat) (state : Bool) : Store × Option String :=
  if (s i).dir = OUT then
    propagate (updateStore s i { s i with value := state }) (s i).connectedTo state
  else
    (s, some "tried to set state on IN gpio")

/-- `ConnectTo` (gpio_fake.go:88-105): replaces the `connectedTo` slice
with the argument list, unconditionally.  The remainder of the Go function
only formats a log line (it reads each non-nil target's name and
direction but acts on none of it); there is no error return and no
direction check. -/
def connectTo (s : Store) (i : Nat) (conn : List (Option Nat)) : Store :=
  updateStore s i { s i with connectedTo := conn }

/-- `Close` (gpio_fake.go:84-86): the body is `gpio = nil`, an assignment
to the method's own copy of the receiver pointer; the heap object is not
touched in any way. -/
def close (s : Store) (_i : Nat) : Store := s

/- ------------------ helper lemmas ------------------ -/

theorem fakeInput_frame (s : Store) (i : Nat) (v : Bool) (j : Nat) (h : j ≠ i) :
    (fakeInput s i v).1 j = s j := by
  unfold fakeInput
  by_cases hd : (s i).dir = IN
  · simp [hd, updateStore_ne s i j _ h]
  · simp [hd]

theorem fakeInput_dir (s : Store) (i : Nat) (v : Bool) (j : Nat) :
    ((fakeInput s i v).1 j).dir = (s j).dir := by
  unfold fakeInput
  by_cases hd : (s i).dir = IN
  · by_cases hj : j = i
    · subst hj; simp [hd, updateStore_same]
    · simp [hd, updateStore_ne s i j _ hj]
  · simp [hd]

theorem fakeInput_connectedTo (s : Store) (i : Nat) (v : Bool) (j : Nat) :
    ((fakeInput s i v).1 j).connectedTo = (s j).connectedTo := by
  unfold fakeInput
  by_cases hd : (s i).dir = IN
  · by_cases hj : j = i
    · subst hj; simp [hd, updateStore_same]
    · simp [hd, updateStore_ne s i j _ hj]
  · simp [hd]

theorem fakeInput_ok (s : Store) (i : Nat) (v : Bool) (h : (s i).dir = IN) :
    fakeInput s i v = (updateStore s i { s i with value := v }, none) := by
  simp [fakeInput, h]

theorem propagate_frame (l : List (Option Nat)) (s : Store) (v : Bool) (j : Nat)
    (h : Option.some j ∉ l) :
    (propagate s l v).1 j = s j := by
  induction l generalizing s with
  | nil => rfl
  | cons hd rest ih =>
    match hd with
    | Option.none =>
      simp only [propagate]
      exact ih s (fun hm => h (List.mem_cons_of_mem _ hm))
    | Option.some k =>
      have hjk : j ≠ k := by
        intro he; exact h (he ▸ List.mem_cons_self _ _)
      have hrest : Option.some j ∉ rest := fun hm => h (List.mem_cons_of_mem _ hm)
      simp only [propagate]
      rcases hfi : fakeInput s k v with ⟨s1, e⟩
      have hs1 : s1 j = s j := by
        have := fakeInput_frame s k v j hjk
        rw [hfi] at this; exact this
      match e with
      | Option.none => simpa [hs1] using ih s1 hrest
      | Option.some msg => simpa using hs1

/-- C3: driving a virtual pin whose direction is INPUT always panics with
the direction message, and the heap at the moment of the panic is exactly
the heap before the call: no value, direction, or wiring of any pin has
changed (the direction check is the first thing `SetState` does). -/
theorem setState_input_pin_fails (s : Store) (i : Nat) (v : Bool)
    (h : (s i).dir = IN) :
    setState s i v = (s, some "tried to set state on IN gpio") := by
  have hno : ¬ (s i).dir = OUT := by
    rw [h]; exact fun he => IN_ne_OUT he
  simp [setState, hno]

/-- Concrete two-pin heap: pin 0 is an IN pin, pin 1 an OUT pin. -/
def c3Store : Store := fun j =>
  if j = 0 then { name := "a", dir := IN, value := false, connectedTo := [] }
  else { name := "p", dir := OUT, value := false, connectedTo := [Option.some 0] }

/-- Witness for C3 at a concrete heap and pin. -/
theorem setState_input_pin_fails_witness :
    setState c3Store 0 true = (c3Store, some "tried to set state on IN gpio") :=
  setState_input_pin_fails c3Store 0 true (by decide)

theorem connectTo_same (s : Store) (i : Nat) (conn : List (Option Nat)) :
    (connectTo s i conn) i = { s i with connectedTo := conn } :=
  updateStore_same s i _

theorem connectTo_ne (s : Store) (i : Nat) (conn : List (Option Nat)) (j : Nat)
    (h : j ≠ i) : (connectTo s i conn) j = s j :=
  updateStore_ne s i j _ h

/-- Driving an OUT pin wired to two distinct IN pins: closed form of the
resulting heap — the pin's own value and both targets' values are set,
nothing else changes, and no panic occurs. -/
theorem drive_two_targets (s : Store) (p a b : Nat) (v : Bool)
    (hp : (s p).dir = OUT) (hconn : (s p).connectedTo = [Option.some a, Option.some b])
    (ha : (s a).dir = IN) (hb : (s b).dir = IN) (hba : b ≠ a) :
    setState s p v =
      (updateStore (updateStore (updateStore s p { s p with value := v })
        a { s a with value := v }) b { s b with value := v }, none) := by
  have hap : a ≠ p := fun he => IN_ne_OUT (by rw [← ha, he]; exact hp)
  have hbp : b ≠ p := fun he => IN_ne_OUT (by rw [← hb, he]; exact hp)
  have hstep : setState s p v
      = propagate (updateStore s p { s p with value := v })
          [Option.some a, Option.some b] v := by
    rw [← hconn]; simp [setState, hp]
  have hda : ((updateStore s p { s p with value := v }) a).dir = IN := by
    rw [updateStore_ne s p a _ hap]; exact ha
  have hfa : fakeInput (updateStore s p { s p with value := v }) a v
      = (updateStore (updateStore s p { s p with value := v })
          a { s a with value := v }, none) := by
    rw [fakeInput_ok _ _ _ hda, updateStore_ne s p a _ hap]
  have hdb : ((updateStore (updateStore s p { s p with value := v })
      a { s a with value := v }) b).dir = IN := by
    rw [updateStore_ne _ a b _ hba, updateStore_ne s p b _ hbp]; exact hb
  have hfb : fakeInput (updateStore (updateStore s p { s p with value := v })
      a { s a with value := v }) b v
      = (updateStore (updateStore (updateStore s p { s p with value := v })
          a { s a with value := v }) b { s b with value := v }, none) := by
    rw [fakeInput_ok _ _ _ hdb, updateStore_ne _ a b _ hba,
      updateStore_ne s p b _ hbp]
  rw [hstep]
  simp only [propagate, hfa, hfb]

/-- C4: wiring an output pin to input pins a and b, then driving it true,
makes `GetState` on both targets read true; a subsequent drive to false
makes both read false.  Propagation is part of `SetState` itself (the walk
happens before `SetState` returns), so on return all directly wired
targets hold the new value. -/
theorem setState_fanout_two_then_clear (s : Store) (p a b : Nat)
    (hp : (s p).dir = OUT) (hconn : (s p).connectedTo = [Option.some a, Option.some b])
    (ha : (s a).dir = IN) (hb : (s b).dir = IN) (hba : b ≠ a) :
    (setState s p true).2 = none ∧
    getState (setState s p true).1 a = (true, none) ∧
    getState (setState s p true).1 b = (true, none) ∧
    (setState (setState s p true).1 p false).2 = none ∧
    getState (setState (setState s p true).1 p false).1 a = (false, none) ∧
    getState (setState (setState s p true).1 p false).1 b = (false, none) := by
  have hap : a ≠ p := fun he => IN_ne_OUT (by rw [← ha, he]; exact hp)
  have hbp : b ≠ p := fun he => IN_ne_OUT (by rw [← hb, he]; exact hp)
  have hab : a ≠ b := Ne.symm hba
  have hpa : p ≠ a := Ne.symm hap
  have hpb : p ≠ b := Ne.symm hbp
  have h1 := drive_two_targets s p a b true hp hconn ha hb hba
  rw [h1]
  set s3 := updateStore (updateStore (updateStore s p { s p with value := true })
    a { s a with value := true }) b { s b with value := true } with hs3
  have e_a : s3 a = { s a with value := true } := by
    simp [hs3, updateStore, hab]
  have e_b : s3 b = { s b with value := true } := by
    simp [hs3, updateStore]
  have e_p : s3 p = { s p with value := true } := by
    simp [hs3, updateStore, hpb, hpa]
  have hp3 : (s3 p).dir = OUT := by rw [e_p]; exact hp
  have hconn3 : (s3 p).connectedTo = [Option.some a, Option.some b] := by
    rw [e_p]; exact hconn
  have ha3 : (s3 a).dir = IN := by rw [e_a]; exact ha
  have hb3 : (s3 b).dir = IN := by rw [e_b]; exact hb
  have h2 := drive_two_targets s3 p a b false hp3 hconn3 ha3 hb3 hba
  rw [h2]
  refine ⟨rfl, ?_, ?_, rfl, ?_, ?_⟩
  · simp [getState, e_a]
  · simp [getState, e_b]
  · simp [getState, updateStore, hab]
  · simp [getState, updateStore]

/-- Concrete heap for the C4 witness: pin 0 an OUT pin wired to IN pins 1
and 2. -/
def c4Store : Store := fun j =>
  if j = 0 then
    { name := "p", dir := OUT, value := false,
      connectedTo := [Option.some 1, Option.some 2] }
  else if j = 1 then { name := "a", dir := IN, value := false, connectedTo := [] }
  else { name := "b", dir := IN, value := false, connectedTo := [] }

/-- Witness for C4 at a concrete heap. -/
theorem setState_fanout_two_then_clear_witness :
    (setState c4Store 0 true).2 = none ∧
    getState (setState c4Store 0 true).1 1 = (true, none) ∧
    getState (setState c4Store 0 true).1 2 = (true, none) ∧
    (setState (setState c4Store 0 true).1 0 false).2 = none ∧
    getState (setState (setState c4Store 0 true).1 0 false).1 1 = (false, none) ∧
    getState (setState (setState c4Store 0 true).1 0 false).1 2 = (false, none) :=
  setState_fanout_two_then_clear c4Store 0 1 2 (by decide) (by decide)
    (by decide) (by decide) (by decide)

/-- C5: `FakeInput` on a wired target sets only that pin's cached value;
even when the target pin `t` carries its own `connectedTo` wiring, driving
an output wired to `t` never cascades to `t`'s targets — exactly one level
of fan-out per drive call. -/
theorem propagation_single_level (s : Store) (p t q : Nat) (v : Bool)
    (hp : (s p).dir = OUT) (hconn : (s p).connectedTo = [Option.some t])
    (ht : (s t).dir = IN) (_htq : Option.some q ∈ (s t).connectedTo)
    (hqp : q ≠ p) (hqt : q ≠ t) :
    (setState s p v).2 = none ∧
    ((setState s p v).1 t).value = v ∧
    (setState s p v).1 q = s q := by
  have htp : t ≠ p := fun he => IN_ne_OUT (by rw [← ht, he]; exact hp)
  have hstep : setState s p v
      = propagate (updateStore s p { s p with value := v }) [Option.some t] v := by
    rw [← hconn]; simp [setState, hp]
  have hdt : ((updateStore s p { s p with value := v }) t).dir = IN := by
    rw [updateStore_ne s p t _ htp]; exact ht
  have hft : fakeInput (updateStore s p { s p with value := v }) t v
      = (updateStore (updateStore s p { s p with value := v })
          t { s t with value := v }, none) := by
    rw [fakeInput_ok _ _ _ hdt, updateStore_ne s p t _ htp]
  have hfinal : setState s p v
      = (updateStore (updateStore s p { s p with value := v })
          t { s t with value := v }, none) := by
    rw [hstep]; simp only [propagate, hft]
  rw [hfinal]
  refine ⟨rfl, ?_, ?_⟩
  · simp [updateStore]
  · simp [updateStore, hqt, hqp]

/-- Concrete heap for the C5 witness: 0 → 1 wired, and 1 itself wired (as
a source) to 2. -/
def c5Store : Store := fun j =>
  if j = 0 then
    { name := "p", dir := OUT, value := false, connectedTo := [Option.some 1] }
  else if j = 1 then
    { name := "t", dir := IN, value := false, connectedTo := [Option.some 2] }
  else { name := "q", dir := IN, value := false, connectedTo := [] }

/-- Witness for C5 at a concrete heap: pin 2's record is untouched. -/
theorem propagation_single_level_witness :
    (setState c5Store 0 true).2 = none ∧
    ((setState c5Store 0 true).1 1).value = true ∧
    (setState c5Store 0 true).1 2 = c5Store 2 :=
  propagation_single_level c5Store 0 1 2 true (by decide) (by decide)
    (by decide) (by decide) (by decide) (by decide)

/-- C6: `ConnectTo` replaces the whole previous target list, so wiring p
to a and then re-wiring p to the empty list detaches a completely: a
subsequent drive sets p's own value but leaves a's record untouched. -/
theorem rewire_replaces_wiring (s : Store) (p a : Nat)
    (hp : (s p).dir = OUT) (hap : a ≠ p) :
    (setState (connectTo (connectTo s p [Option.some a]) p []) p true).2 = none ∧
    ((setState (connectTo (connectTo s p [Option.some a]) p []) p true).1 p).value
      = true ∧
    (setState (connectTo (connectTo s p [Option.some a]) p []) p true).1 a
      = s a := by
  have e2 : (connectTo (connectTo s p [Option.some a]) p []) p
      = { (connectTo s p [Option.some a]) p with connectedTo := [] } :=
    connectTo_same _ p []
  have hd2 : ((connectTo (connectTo s p [Option.some a]) p []) p).dir = OUT := by
    rw [e2, connectTo_same]; exact hp
  have hc2 : ((connectTo (connectTo s p [Option.some a]) p []) p).connectedTo
      = [] := by
    rw [e2]
  have hset : setState (connectTo (connectTo s p [Option.some a]) p []) p true
      = (updateStore (connectTo (connectTo s p [Option.some a]) p []) p
          { (connectTo (connectTo s p [Option.some a]) p []) p with value := true },
         none) := by
    rw [setState, if_pos hd2, hc2]
    rfl
  rw [hset]
  refine ⟨rfl, ?_, ?_⟩
  · simp [updateStore]
  · simp [connectTo, updateStore, hap]

/-- Witness for C6 at a concrete heap (`c3Store`: pin 1 OUT, pin 0 IN). -/
theorem rewire_replaces_wiring_witness :
    (setState (connectTo (connectTo c3Store 1 [Option.some 0]) 1 []) 1 true).2
      = none ∧
    ((setState (connectTo (connectTo c3Store 1 [Option.some 0]) 1 []) 1 true).1 1).value
      = true ∧
    (setState (connectTo (connectTo c3Store 1 [Option.some 0]) 1 []) 1 true).1 0
      = c3Store 0 :=
  rewire_replaces_wiring c3Store 1 0 (by decide) (by decide)

/-- C9: a freshly constructed virtual pin starts with cached value false
and an empty target list (both constructors); `GetState` on it reads
false, and driving a fresh OUT pin propagates to no other pin: every
other heap entry is exactly as before. -/
theorem fresh_pin_defaults (nm : String) (d : Int) (n : Nat) (s : Store)
    (i : Nat) (v : Bool) :
    (newFakeNamedGpio nm d).value = false ∧
    (newFakeNamedGpio nm d).connectedTo = [] ∧
    newFakeGpio n d = newFakeNamedGpio ("FakeGPIO(" ++ toString n ++ ")") d ∧
    getState (updateStore s i (newFakeNamedGpio nm d)) i = (false, none) ∧
    (setState (updateStore s i (newFakeNamedGpio nm OUT)) i v).2 = none ∧
    (∀ j, j ≠ i → (setState (updateStore s i (newFakeNamedGpio nm OUT)) i v).1 j
      = s j) := by
  have hfresh : (updateStore s i (newFakeNamedGpio nm OUT)) i
      = newFakeNamedGpio nm OUT := updateStore_same s i _
  have hset : setState (updateStore s i (newFakeNamedGpio nm OUT)) i v
      = (updateStore (updateStore s i (newFakeNamedGpio nm OUT)) i
          { (updateStore s i (newFakeNamedGpio nm OUT)) i with value := v },
         none) := by
    rw [setState, hfresh]
    simp [newFakeNamedGpio, OUT, propagate]
  refine ⟨rfl, rfl, rfl, ?_, ?_, ?_⟩
  · simp [getState, updateStore, newFakeNamedGpio]
  · rw [hset]
  · intro j hj
    rw [hset]
    simp [updateStore, hj]

/-- Witness for C9 at a concrete heap, address, and spectator pin. -/
theorem fresh_pin_defaults_witness :
    (newFakeNamedGpio "x" IN).value = false ∧
    (newFakeNamedGpio "x" IN).connectedTo = [] ∧
    newFakeGpio 7 IN = newFakeNamedGpio ("FakeGPIO(" ++ toString 7 ++ ")") IN ∧
    getState (updateStore c3Store 5 (newFakeNamedGpio "x" IN)) 5 = (false, none) ∧
    (setState (updateStore c3Store 5 (newFakeNamedGpio "x" OUT)) 5 true).2 = none ∧
    (setState (updateStore c3Store 5 (newFakeNamedGpio "x" OUT)) 5 true).1 0
      = c3Store 0 := by
  have h := fresh_pin_defaults "x" IN 7 c3Store 5 true
  exact ⟨h.1, h.2.1, h.2.2.1, h.2.2.2.1, h.2.2.2.2.1,
    h.2.2.2.2.2 0 (by decide)⟩

/-- C10: `Close` on a virtual pin only rebinds the method's local copy of
the receiver pointer (`gpio = nil`); the heap is untouched and every
subsequent operation behaves exactly as if `Close` had never been
called. -/
theorem close_is_noop (s : Store) (i j : Nat) (v : Bool)
    (conn : List (Option Nat)) (d : Int) :
    close s i = s ∧
    getState (close s i) j = getState s j ∧
    checkDirection (close s i) j = checkDirection s j ∧
    setState (close s i) j v = setState s j v ∧
    fakeInput (close s i) j v = fakeInput s j v ∧
    connectTo (close s i) j conn = connectTo s j conn ∧
    setDirection (close s i) j d = setDirection s j d :=
  ⟨rfl, rfl, rfl, rfl, rfl, rfl, rfl⟩

/-- Concrete heap for C1: two OUT pins, so pin 1 is an illegal wiring
target according to the spec's invariant. -/
def c1Store : Store := fun j =>
  if j = 0 then { name := "p", dir := OUT, value := false, connectedTo := [] }
  else { name := "q", dir := OUT, value := false, connectedTo := [] }

/-- Counterexample to C1 as stated: `ConnectTo` has no failure channel at
all — wiring an OUT pin as a target succeeds at wire time (the edge is
installed, the target untouched, no panic), and the direction violation
only surfaces later, at drive time, as `FakeInput`'s panic. -/
theorem connectTo_accepts_output_target_cex :
    (c1Store 1).dir ≠ IN ∧
    ((connectTo c1Store 0 [Option.some 1]) 0).connectedTo = [Option.some 1] ∧
    (connectTo c1Store 0 [Option.some 1]) 1 = c1Store 1 ∧
    (setState (connectTo c1Store 0 [Option.some 1]) 0 true).2
      = some "tried to fake input for output gpio" := by
  refine ⟨by decide, by decide, by decide, ?_⟩
  decide

/-- C1 amended: `ConnectTo` performs no direction check and cannot fail;
it installs the given target list unconditionally and alters no other
pin.  A target whose direction is not IN makes the *drive* fail: the
panic is raised inside `FakeInput` during `SetState`, not at wire time. -/
theorem connectTo_defers_direction_check (s : Store) (p q : Nat) (v : Bool)
    (hp : (s p).dir = OUT) (hq : (s q).dir ≠ IN) (hqp : q ≠ p) :
    ((connectTo s p [Option.some q]) p).connectedTo = [Option.some q] ∧
    (∀ j, j ≠ p → (connectTo s p [Option.some q]) j = s j) ∧
    (setState (connectTo s p [Option.some q]) p v).2
      = some "tried to fake input for output gpio" := by
  have hd1 : ((connectTo s p [Option.some q]) p).dir = OUT := by
    rw [connectTo_same]; exact hp
  have hc1 : ((connectTo s p [Option.some q]) p).connectedTo
      = [Option.some q] := by
    rw [connectTo_same]
  have hdq : ((updateStore (connectTo s p [Option.some q]) p
      { (connectTo s p [Option.some q]) p with value := v }) q).dir ≠ IN := by
    rw [updateStore_ne _ p q _ hqp, connectTo_ne _ p _ q hqp]
    exact hq
  have hset : setState (connectTo s p [Option.some q]) p v
      = propagate (updateStore (connectTo s p [Option.some q]) p
          { (connectTo s p [Option.some q]) p with value := v })
          [Option.some q] v := by
    rw [setState, if_pos hd1, hc1]
  refine ⟨hc1, fun j hj => connectTo_ne _ p _ j hj, ?_⟩
  rw [hset]
  simp [propagate, fakeInput, hdq]

/-- Witness for the amended C1 at a concrete heap. -/
theorem connectTo_defers_direction_check_witness :
    ((connectTo c1Store 0 [Option.some 1]) 0).connectedTo = [Option.some 1] ∧
    (connectTo c1Store 0 [Option.some 1]) 2 = c1Store 2 ∧
    (setState (connectTo c1Store 0 [Option.some 1]) 0 false).2
      = some "tried to fake input for output gpio" := by
  have h := connectTo_defers_direction_check c1Store 0 1 false (by decide)
    (by decide) (by decide)
  exact ⟨h.1, h.2.1 2 (by decide), h.2.2⟩

namespace Sysfs

/-- The file contents a `SysfsGPIO`'s attribute reads see: `none` models a
failed open/read of the attribute file, `some buf` the bytes read.  The Go
code reads into a 16-byte zero-initialised buffer and compares fixed-width
slices; for the prefix words compared ("in", "out", "none", "both",
"rising", "falling" — none of which contain NUL bytes) that is equivalent
to `String.take` on the content. -/
structure SysfsPinFiles where
  directionFile : Option String
  edgeFile : Option String
deriving DecidableEq

/-- `GetEdge` (gpio_sysfs.go:128-163): read the edge attribute and
classify it by prefix.  Note the `n == 0` branch of the Go code assigns an
error but does not return; the subsequent prefix chain then overwrites it
with "Invalid edge state", which is therefore the result for empty
content. -/
def getEdge (edgeFile : Option String) : String × Option String :=
  match edgeFile with
  | none => ("", some "open or read error")
  | some buf =>
    if buf.take 4 = "none" then ("none", none)
    else if buf.take 4 = "both" then ("both", none)
    else if buf.take 6 = "rising" then ("rising", none)
    else if buf.take 7 = "falling" then ("falling", none)
    else ("", some "Invalid edge state")

/-- `CheckDirection` (gpio_sysfs.go:94-126): read the direction attribute
and classify it by prefix; an empty read returns the "wtf ?" error with
direction -1. -/
def checkDirection (p : SysfsPinFiles) : Int × Option String :=
  match p.directionFile with
  | none => (-1, some "open or read error")
  | some buf =>
    if buf = "" then (-1, some "wtf ?")
    else if buf.take 2 = "in" then (IN, none)
    else if buf.take 3 = "out" then (OUT, none)
    else (-1, some "direction is neither in nor out !!!")

/-- `SetEdgeCallback` (gpio_sysfs.go:227-258), attach decision: call
`GetEdge`; fail on its error; fail if the edge mode is "none"; otherwise
spawn the polling goroutine and return nil.  The result pair is (returned
error, whether the background task was started).  The function never
reads the direction attribute. -/
def setEdgeCallback (p : SysfsPinFiles) : Option String × Bool :=
  match getEdge p.edgeFile with
  | (_, some e) => (some e, false)
  | (edge, none) =>
    if edge = "none" then (some "Edge value is set to NONE", false)
    else (none, true)

/-- One iteration's environment for the polling goroutine of
`SetEdgeCallback` (gpio_sysfs.go:242-255): `unix.Poll` returns a ready
count and an error (a timeout is `nready = 0` with no error); `GetState`
returns a state and an error.  The dummy `GetState` at the top of each
iteration has both results discarded and is not modelled. -/
structure PollIter where
  nready : Nat
  pollErr : Bool
  readValue : Option Bool
deriving DecidableEq

/-- The polling loop of `SetEdgeCallback`, run against a finite trace of
iteration environments: break on a poll error; break on a read error;
otherwise push the read state and continue.  The code never consults the
ready count (`_, err := unix.Poll(...)`).  Result: (values pushed on the
channel, whether the loop exited — `defer close(*callback)` fires exactly
then).  An exhausted trace means the loop is still running. -/
def monitorLoop : List PollIter → List Bool × Bool
  | [] => ([], false)
  | it :: rest =>
    if it.pollErr then ([], true)
    else
      match it.readValue with
      | Option.none => ([], true)
      | Option.some b =>
        let r := monitorLoop rest
        (b :: r.1, r.2)

/-- An iteration on which the loop breaks: poll error or read error. -/
def iterErr (it : PollIter) : Bool := it.pollErr || it.readValue.isNone

/-- `enable_export` (gpio_sysfs.go:74-92) environment: the `os.Stat`
outcome for the per-pin directory, and whether opening and writing the
export control file succeed. -/
inductive StatResult
  | found
  | notExist
  | otherErr
deriving DecidableEq

structure ExportEnv where
  statResult : StatResult
  openOk : Bool
  writeOk : Bool
deriving DecidableEq

/-- `enable_export` (gpio_sysfs.go:74-92): stat the per-pin directory;
if it exists return nil without touching the export file; on any stat
error other than not-exist return it; otherwise open the export control
file and write the pin number.  Result: (number written to the export
file, if any; returned error). -/
def enable_export (env : ExportEnv) (number : Nat) : Option Nat × Option String :=
  match env.statResult with
  | StatResult.found => (none, none)
  | StatResult.otherErr => (none, some "stat error")
  | StatResult.notExist =>
    if env.openOk then
      (some number, if env.writeOk then none else some "write error")
    else (none, some "open error")

/-- Concrete pin for C2: the direction attribute reads "out" (so the pin
is not an INPUT pin), while the edge attribute reads "rising". -/
def c2Pin : SysfsPinFiles :=
  { directionFile := some "out\n", edgeFile := some "rising\n" }

/-- Counterexample to C2 as stated: on a pin whose direction attribute is
"out" (direction ≠ INPUT) but whose edge mode is "rising",
`SetEdgeCallback` returns nil and starts the background polling task —
the direction precondition is never checked. -/
theorem setEdgeCallback_ignores_direction_cex :
    checkDirection c2Pin = (OUT, none) ∧
    OUT ≠ IN ∧
    setEdgeCallback c2Pin = (none, true) := by
  refine ⟨?_, by decide, ?_⟩ <;> decide

/-- C2 amended: `SetEdgeCallback`'s attach decision depends only on the
edge attribute — the direction attribute is never consulted; it returns
an error (and starts no task) exactly when the edge read fails or
yields "none"; in particular on edge mode NONE it always fails before
any task starts. -/
theorem setEdgeCallback_checks_only_edge (p : SysfsPinFiles) (d : Option String) :
    setEdgeCallback { directionFile := d, edgeFile := p.edgeFile }
      = setEdgeCallback p ∧
    ((getEdge p.edgeFile).2 ≠ none →
      setEdgeCallback p = ((getEdge p.edgeFile).2, false)) ∧
    (getEdge p.edgeFile = ("none", none) →
      setEdgeCallback p = (some "Edge value is set to NONE", false)) ∧
    ((setEdgeCallback p).2 = true ↔
      (getEdge p.edgeFile).2 = none ∧ (getEdge p.edgeFile).1 ≠ "none") := by
  refine ⟨rfl, ?_, ?_, ?_⟩
  · intro hne
    rcases he : getEdge p.edgeFile with ⟨edge, err⟩
    match err with
    | Option.none => rw [he] at hne; exact absurd rfl hne
    | Option.some e => simp [setEdgeCallback, he]
  · intro hnone
    simp [setEdgeCallback, hnone]
  · rcases he : getEdge p.edgeFile with ⟨edge, err⟩
    match err with
    | Option.none =>
      by_cases hed : edge = "none" <;> simp [setEdgeCallback, he, hed]
    | Option.some e => simp [setEdgeCallback, he]

/-- Concrete pin whose edge attribute reads "none". -/
def c2NonePin : SysfsPinFiles :=
  { directionFile := some "in\n", edgeFile := some "none\n" }

/-- Witness for the amended C2: on edge mode NONE the call fails with the
config error and no task starts. -/
theorem setEdgeCallback_checks_only_edge_witness :
    getEdge c2NonePin.edgeFile = ("none", none) ∧
    setEdgeCallback c2NonePin = (some "Edge value is set to NONE", false) :=
  ⟨by decide,
   (setEdgeCallback_checks_only_edge c2NonePin none).2.2.1 (by decide)⟩

/-- Counterexample to C7 as stated: a single iteration whose poll times
out (`nready = 0`, no error) does not "continue without pushing" — the
loop ignores the ready count, reads the state and pushes it. -/
theorem monitor_pushes_on_timeout_cex :
    monitorLoop [⟨0, false, some true⟩] = ([true], false) ∧
    (monitorLoop [⟨0, false, some true⟩]).1 ≠ [] := by
  refine ⟨?_, by decide⟩ ; decide

/-- C7 amended: the loop exits (and the deferred close fires, so the
stream ends) exactly when some iteration's poll or state read returns an
error; the values delivered are the states read on all iterations before
the first error — including timeout iterations, which push like any
other, since the ready count is never examined. -/
theorem monitorLoop_closes_exactly_on_error (t : List PollIter) :
    monitorLoop t
      = ((t.takeWhile fun it => !(iterErr it)).filterMap
          (fun it => it.readValue),
         t.any iterErr) := by
  induction t with
  | nil => rfl
  | cons it rest ih =>
    by_cases hp : it.pollErr
    · simp [monitorLoop, iterErr, hp, List.takeWhile_cons]
    · match hr : it.readValue with
      | Option.none =>
        simp [monitorLoop, iterErr, hp, hr, List.takeWhile_cons]
      | Option.some b =>
        simp [monitorLoop, iterErr, hp, hr, List.takeWhile_cons, ih]

/-- C8: when the per-pin directory already exists, `enable_export`
succeeds without writing anything to the export control file; the pin
number is written only when the directory does not exist, and then it is
exactly the pin's number. -/
theorem enable_export_noop_when_exported (env : ExportEnv) (n : Nat) :
    (env.statResult = StatResult.found → enable_export env n = (none, none)) ∧
    (∀ m, (enable_export env n).1 = some m →
      env.statResult = StatResult.notExist ∧ m = n) := by
  rcases env with ⟨st, op, wr⟩
  cases st
  · exact ⟨fun _ => rfl, fun m hm => by simp [enable_export] at hm⟩
  · refine ⟨fun h => by simp at h, ?_⟩
    intro m hm
    by_cases ho : op
    · simp [enable_export, ho] at hm
      exact ⟨rfl, hm.symm⟩
    · simp [enable_export, ho] at hm
  · exact ⟨fun h => by simp at h, fun m hm => by simp [enable_export] at hm⟩

/-- Witness for C8: an already-exported pin is a silent no-op; a
not-yet-exported pin gets its number written. -/
theorem enable_export_noop_when_exported_witness :
    enable_export ⟨StatResult.found, true, true⟩ 5 = (none, none) ∧
    (ExportEnv.statResult ⟨StatResult.notExist, true, true⟩
        = StatResult.notExist ∧ 5 = 5) :=
  ⟨(enable_export_noop_when_exported ⟨StatResult.found, true, true⟩ 5).1 rfl,
   (enable_export_noop_when_exported ⟨StatResult.notExist, true, true⟩ 5).2 5
     (by decide)⟩

end Sysfs

end BBHW
